import Mathlib

set_option linter.unusedVariables false
set_option linter.unreachableTactic false
set_option linter.unusedTactic false

/-! Shallow embedding of the simulation core of `shooting_game.py` (a 2D
target-shooting practice game).  Python floats are modelled as exact
rationals (`ℚ`), Python ints as `ℤ`/`ℕ`.  The pygame presentation layer
(rendering, fonts, event polling) is not part of the core and is omitted;
the random number generator is modelled as an oracle (`SpawnChoice`)
supplying the values that `random.uniform` would return.
-/

namespace Shooting

/-! Config constants (module level, `shooting_game.py` lines 18-47). -/

def WIDTH : ℚ := 900

def HEIGHT : ℚ := 600

def TARGET_MIN_RADIUS : ℚ := 16

def TARGET_MAX_RADIUS : ℚ := 36

def TARGET_LIFETIME : ℚ := 1.5

def SPAWN_INTERVAL_START : ℚ := 0.85

def SPAWN_INTERVAL_MIN : ℚ := 0.35

def SPAWN_ACCEL_EVERY : ℚ := 5

def SPAWN_ACCEL_STEP : ℚ := 0.04

def MAX_TARGETS_ON_SCREEN : ℕ := 7

def MISS_SCORE : ℤ := -5

def TIMEOUT_SCORE : ℤ := -3

/-- Ring scoring: bullseye (inner) -> middle -> outer. -/
def RING_SCORES : ℤ × ℤ × ℤ := (10, 5, 1)

/-- Fractions of target radius that define the rings (ascending). -/
def RING_FRACS : ℚ × ℚ × ℚ := (0.25, 0.55, 1.00)

/-- Round duration in seconds; `none` models the Python `None` ("endless"). -/
def ROUND_TIME : Option ℚ := some 15

/-- RGB colours used by the feedback texts. -/
abbrev Color := ℕ × ℕ × ℕ

def WHITE : Color := (240, 240, 240)

def GREEN : Color := (45, 200, 120)

def RED : Color := (230, 60, 70)

def YELLOW : Color := (250, 220, 90)

def CYAN : Color := (60, 210, 230)

/-! Data structures. -/

/-- Circular target entity (`Target` dataclass). -/
structure Target where
  x : ℚ
  y : ℚ
  r : ℚ
  spawn_time : ℚ
  lifetime : ℚ
deriving DecidableEq

def Target.contains (t : Target) (px py : ℚ) : Bool :=
  decide ((t.x - px) ^ 2 + (t.y - py) ^ 2 ≤ t.r ^ 2)

/-- The `clamp` utility (line 74). -/
def clamp (v lo hi : ℚ) : ℚ := max lo (min hi v)

/-- One floating feedback text `(text, color, x, y, birth_time)`. -/
structure FloatText where
  text : String
  color : Color
  x : ℚ
  y : ℚ
  birth : ℚ
deriving DecidableEq

/-- The mutable state of the `Game` object (pygame handles omitted). -/
structure Game where
  running : Bool
  playing : Bool
  paused : Bool
  targets : List Target
  spawn_interval : ℚ
  last_spawn : ℚ
  start_time : ℚ
  elapsed : ℚ
  score : ℤ
  hits : ℕ
  misses : ℕ
  timeouts : ℕ
  best_score : ℤ
  floating_texts : List FloatText
deriving DecidableEq

/-- The state `Game.reset` produces (also the `__init__` state). -/
def initGame : Game where
  running := true
  playing := false
  paused := false
  targets := []
  spawn_interval := SPAWN_INTERVAL_START
  last_spawn := 0
  start_time := 0
  elapsed := 0
  score := 0
  hits := 0
  misses := 0
  timeouts := 0
  best_score := 0
  floating_texts := []

def Game.reset (_g : Game) : Game := initGame

/-- Start a new round (`Game.start_round`). -/
def Game.start_round (g : Game) (now : ℚ) : Game :=
  { g with
    playing := true
    targets := []
    spawn_interval := SPAWN_INTERVAL_START
    last_spawn := now
    start_time := now
    elapsed := 0
    score := 0
    hits := 0
    misses := 0
    timeouts := 0
    floating_texts := [] }

/-- Oracle for the four `random.uniform` draws made by `Game.spawn_target`. -/
structure SpawnChoice where
  r : ℚ
  x : ℚ
  y : ℚ
  lifeFactor : ℚ
deriving DecidableEq

/-- The value ranges `random.uniform` guarantees for a spawn draw. -/
def SpawnChoice.valid (c : SpawnChoice) : Prop :=
  TARGET_MIN_RADIUS ≤ c.r ∧ c.r ≤ TARGET_MAX_RADIUS ∧
  c.r + 8 ≤ c.x ∧ c.x ≤ WIDTH - c.r - 8 ∧
  c.r + 8 + 40 ≤ c.y ∧ c.y ≤ HEIGHT - c.r - 8 ∧
  0.85 ≤ c.lifeFactor ∧ c.lifeFactor ≤ 1.15

instance (c : SpawnChoice) : Decidable c.valid := by
  unfold SpawnChoice.valid; infer_instance

/-- Python `Game.spawn_target`: append one freshly drawn target. -/
def Game.spawn_target (g : Game) (now : ℚ) (c : SpawnChoice) : Game :=
  { g with
    targets := g.targets ++
      [{ x := c.x, y := c.y, r := c.r, spawn_time := now,
         lifetime := TARGET_LIFETIME * c.lifeFactor }] }

/-- Python `Game.make_float_text`: append one feedback text. -/
def Game.make_float_text (g : Game) (text : String) (color : Color)
    (x y now : ℚ) : Game :=
  { g with floating_texts := g.floating_texts ++ [⟨text, color, x, y, now⟩] }

/-- The spawn-interval expression of the difficulty ramp (lines 137-142):
`clamp(SPAWN_INTERVAL_START - int(t // SPAWN_ACCEL_EVERY) * SPAWN_ACCEL_STEP,
SPAWN_INTERVAL_MIN, SPAWN_INTERVAL_START)`. -/
def spawnIntervalFormula (t : ℚ) : ℚ :=
  clamp (SPAWN_INTERVAL_START -
      (Int.floor (t / SPAWN_ACCEL_EVERY) : ℚ) * SPAWN_ACCEL_STEP)
    SPAWN_INTERVAL_MIN SPAWN_INTERVAL_START

/-- Python `Game.update(dt, now)`: one simulation tick.  `c` is the RNG oracle for
the (at most one) spawn this tick.  Note the Python body never reads `dt`. -/
def Game.update (g : Game) (dt now : ℚ) (c : SpawnChoice) : Game :=
  if g.playing = false then g
  else if g.paused = true then g
  else
    let g1 : Game := { g with elapsed := now - g.start_time }
    let g2 : Game :=
      if SPAWN_ACCEL_EVERY ≠ 0 ∧ 0 < g1.elapsed then
        { g1 with spawn_interval := spawnIntervalFormula g1.elapsed }
      else g1
    let g3 : Game :=
      if g2.spawn_interval ≤ now - g2.last_spawn ∧
          g2.targets.length < MAX_TARGETS_ON_SCREEN then
        { g2.spawn_target now c with last_spawn := now }
      else g2
    let expired : List Target :=
      g3.targets.filter fun t => decide (t.lifetime < now - t.spawn_time)
    let alive : List Target :=
      g3.targets.filter fun t => !decide (t.lifetime < now - t.spawn_time)
    let g4 : Game :=
      { g3 with
        targets := alive
        score := g3.score + TIMEOUT_SCORE * (expired.length : ℤ)
        timeouts := g3.timeouts + expired.length
        floating_texts := g3.floating_texts ++
          expired.map fun t =>
            ⟨"-" ++ toString TIMEOUT_SCORE.natAbs, RED, t.x, t.y, now⟩ }
    match ROUND_TIME with
    | none => g4
    | some rt =>
        if rt ≤ g4.elapsed then
          { g4 with best_score := max g4.best_score g4.score, playing := false }
        else g4

/-- Squared distance from the click point to a target's centre
(`dx*dx + dy*dy` in `handle_click`). -/
def d2At (mx my : ℚ) (t : Target) : ℚ :=
  (mx - t.x) * (mx - t.x) + (my - t.y) * (my - t.y)

/-- Ring index chosen for a freshly found closest target (lines 196-201). -/
def ringIdxOf (d2 r : ℚ) : ℕ :=
  if d2 ≤ (r * RING_FRACS.1) ^ 2 then 0
  else if d2 ≤ (r * RING_FRACS.2.1) ^ 2 then 1
  else 2

/-- Python `RING_SCORES[i]`. -/
def ringScoreAt (i : ℕ) : ℤ :=
  if i = 0 then RING_SCORES.1 else if i = 1 then RING_SCORES.2.1
  else RING_SCORES.2.2

/-- The closest-hit scan loop of `handle_click` (lines 185-201): walks the
target list keeping `(hit_index, closest_d2, ring_idx_for_hit)`; `i` is the
index of the first list element. -/
def hitScan (mx my : ℚ) :
    List Target → ℕ → ℤ → ℚ → Option ℕ → ℤ × ℚ × Option ℕ
  | [], _i, hit_index, closest_d2, ring_idx_for_hit =>
      (hit_index, closest_d2, ring_idx_for_hit)
  | t :: rest, i, hit_index, closest_d2, ring_idx_for_hit =>
      let d2 := d2At mx my t
      if d2 ≤ (t.r * RING_FRACS.2.2) ^ 2 then
        if d2 < closest_d2 then
          hitScan mx my rest (i + 1) (i : ℤ) d2 (some (ringIdxOf d2 t.r))
        else hitScan mx my rest (i + 1) hit_index closest_d2 ring_idx_for_hit
      else hitScan mx my rest (i + 1) hit_index closest_d2 ring_idx_for_hit

/-- Python `Game.handle_click(pos, now)`. -/
def Game.handle_click (g : Game) (pos : ℚ × ℚ) (now : ℚ) : Game :=
  if g.playing = false then g.start_round now
  else
    let mx := pos.1
    let my := pos.2
    let res := hitScan mx my g.targets 0 (-1) ((10 : ℚ) ^ 12) none
    let hit_index := res.1
    let ring_idx_for_hit := res.2.2
    if 0 ≤ hit_index ∧ ring_idx_for_hit.isSome = true then
      let t := g.targets.getD hit_index.toNat ⟨0, 0, 0, 0, 0⟩
      let award := ringScoreAt (ring_idx_for_hit.getD 2)
      let color := if award = 10 then GREEN else if award = 5 then CYAN
        else WHITE
      (({ g with
          targets := g.targets.eraseIdx hit_index.toNat
          score := g.score + award
          hits := g.hits + 1 } : Game)).make_float_text
        ("+" ++ toString award) color t.x t.y now
    else
      (({ g with
          score := g.score + MISS_SCORE
          misses := g.misses + 1 } : Game)).make_float_text
        (toString MISS_SCORE) RED mx my now

/-! The event loop as a command step machine.

`Game.handle_events` translates pygame events into the calls below; `Game.run`
interleaves them with `update` ticks.  `Cmd` is the resulting command
alphabet (the `reset` / `start_round` entry points are included so that every
sequence of core calls is expressible). -/

inductive Cmd where
  | update (dt now : ℚ) (c : SpawnChoice)
  | click (pos : ℚ × ℚ) (now : ℚ)
  | keyP
  | keyR
  | keyEscape
  | quitEvent
  | resetGame
  | startRound (now : ℚ)

/-- One dispatched event / core call (`Game.handle_events` lines 325-337 and
the main loop). -/
def Game.step (g : Game) : Cmd → Game
  | .update dt now c => g.update dt now c
  | .click pos now => g.handle_click pos now
  | .keyP => if g.playing = true then { g with paused := !g.paused } else g
  | .keyR => { g with best_score := 0 }
  | .keyEscape => { g with running := false }
  | .quitEvent => { g with running := false }
  | .resetGame => g.reset
  | .startRound now => g.start_round now

def Game.multistep (g : Game) (cs : List Cmd) : Game := cs.foldl Game.step g

/-- States reachable from the freshly constructed game. -/
def Reachable (s : Game) : Prop := ∃ cs : List Cmd, Game.multistep initGame cs = s

/-- The HUD accuracy expression (`draw`, line 272):
`(hits / max(1, hits + misses)) * 100.0`. -/
def Game.accuracy (g : Game) : ℚ :=
  ((g.hits : ℚ) / ((max 1 (g.hits + g.misses) : ℕ) : ℚ)) * 100

/-- The expiry test of the update loop (line 153): `now - t.spawn_time > t.lifetime`. -/
def expiredB (now : ℚ) (t : Target) : Bool := decide (t.lifetime < now - t.spawn_time)

/-- The target `spawn_target` appends for oracle draw `c` at time `now`. -/
def spawnedTarget (c : SpawnChoice) (now : ℚ) : Target :=
  { x := c.x, y := c.y, r := c.r, spawn_time := now,
    lifetime := TARGET_LIFETIME * c.lifeFactor }

/-- The feedback text produced for an expired target (line 156). -/
def expiredFT (now : ℚ) (t : Target) : FloatText :=
  ⟨"-" ++ toString TIMEOUT_SCORE.natAbs, RED, t.x, t.y, now⟩

/-! Basic lemmas about `update`. -/

theorem update_of_not_playing (g : Game) (dt now : ℚ) (c : SpawnChoice)
    (h : g.playing = false) : g.update dt now c = g := by
  simp [Game.update, h]

theorem update_of_paused (g : Game) (dt now : ℚ) (c : SpawnChoice)
    (h : g.paused = true) : g.update dt now c = g := by
  by_cases hp : g.playing = false
  · simp [Game.update, hp]
  · simp [Game.update, hp, h]

theorem update_dt_irrelevant (g : Game) (dt dt' now : ℚ) (c : SpawnChoice) :
    g.update dt now c = g.update dt' now c := rfl

theorem update_elapsed (g : Game) (dt now : ℚ) (c : SpawnChoice)
    (hp : g.playing = true) (hpa : g.paused = false) :
    (g.update dt now c).elapsed = now - g.start_time := by
  simp only [Game.update, hp, hpa, ROUND_TIME, Game.spawn_target]
  norm_num
  split_ifs <;> rfl

theorem update_paused_eq (g : Game) (dt now : ℚ) (c : SpawnChoice) :
    (g.update dt now c).paused = g.paused := by
  by_cases hp : g.playing = false
  · simp [Game.update, hp]
  · by_cases hpa : g.paused = true
    · simp [Game.update, hp, hpa]
    · simp only [Game.update, hp, hpa, ROUND_TIME, Game.spawn_target]
      norm_num
      split_ifs <;> rfl

theorem update_playing_of_lt (g : Game) (dt now : ℚ) (c : SpawnChoice)
    (hp : g.playing = true) (hpa : g.paused = false)
    (h : now - g.start_time < 15) :
    (g.update dt now c).playing = true ∧
      (g.update dt now c).best_score = g.best_score := by
  simp only [Game.update, hp, hpa, ROUND_TIME, Game.spawn_target]
  norm_num
  split_ifs with h1 h2 h3 h4 h5 h6 <;>
    first
      | (exact absurd ‹(15 : ℚ) ≤ now - g.start_time› (not_le.mpr h))
      | exact ⟨rfl, rfl⟩

theorem update_roundover (g : Game) (dt now : ℚ) (c : SpawnChoice)
    (hp : g.playing = true) (hpa : g.paused = false)
    (h : 15 ≤ now - g.start_time) :
    (g.update dt now c).playing = false ∧
      (g.update dt now c).best_score =
        max g.best_score (g.update dt now c).score := by
  simp only [Game.update, hp, hpa, ROUND_TIME, Game.spawn_target]
  norm_num
  split_ifs <;>
    first
      | (exact absurd h ‹¬ (15 : ℚ) ≤ now - g.start_time›)
      | exact ⟨rfl, rfl⟩

theorem expiredB_def (now : ℚ) :
    expiredB now = fun t => decide (t.lifetime < now - t.spawn_time) := rfl

theorem expiredFT_def (now : ℚ) :
    expiredFT now = fun t =>
      (⟨"-" ++ toString TIMEOUT_SCORE.natAbs, RED, t.x, t.y, now⟩ : FloatText) := rfl

theorem expiredB_spawnedTarget (c : SpawnChoice) (now : ℚ)
    (hl : 0 ≤ TARGET_LIFETIME * c.lifeFactor) :
    expiredB now (spawnedTarget c now) = false := by
  simp only [expiredB, spawnedTarget, decide_eq_false_iff_not, not_lt]
  linarith

/-- Full characterization of the expiry pass of `update` (lines 150-159) in
terms of the pre-state: every aged-out target is removed, each contributing
`TIMEOUT_SCORE` once, one `timeouts` increment and one feedback text at its
position; the survivors (plus the tick's fresh spawn, if any) are kept. -/
theorem update_expiry (g : Game) (dt now : ℚ) (c : SpawnChoice)
    (hp : g.playing = true) (hpa : g.paused = false)
    (hl : 0 ≤ TARGET_LIFETIME * c.lifeFactor) :
    ((g.update dt now c).targets = g.targets.filter (fun t => !expiredB now t) ∨
      (g.update dt now c).targets =
        g.targets.filter (fun t => !expiredB now t) ++ [spawnedTarget c now]) ∧
    (g.update dt now c).score =
      g.score + TIMEOUT_SCORE * ((g.targets.filter (expiredB now)).length : ℤ) ∧
    (g.update dt now c).timeouts =
      g.timeouts + (g.targets.filter (expiredB now)).length ∧
    (g.update dt now c).floating_texts =
      g.floating_texts ++ (g.targets.filter (expiredB now)).map (expiredFT now) ∧
    (g.update dt now c).hits = g.hits ∧
    (g.update dt now c).misses = g.misses := by
  have hsp : ¬ (TARGET_LIFETIME * c.lifeFactor < now - now) := by
    rw [sub_self]; exact not_lt.mpr hl
  simp only [Game.update, hp, hpa, ROUND_TIME, Game.spawn_target, expiredB,
    spawnedTarget, expiredFT]
  norm_num
  split_ifs <;>
    simp_all [List.filter_append, hsp, expiredB_def, expiredFT_def]

/-- An `update` adds at most one target and only below capacity. -/
theorem update_len_le (g : Game) (dt now : ℚ) (c : SpawnChoice)
    (h : g.targets.length ≤ MAX_TARGETS_ON_SCREEN) :
    (g.update dt now c).targets.length ≤ MAX_TARGETS_ON_SCREEN := by
  by_cases hp : g.playing = false
  · simpa [update_of_not_playing g dt now c hp]
  · by_cases hpa : g.paused = true
    · simpa [update_of_paused g dt now c hpa]
    · simp only [Game.update, hp, hpa, ROUND_TIME, Game.spawn_target]
      norm_num
      split_ifs with h1 h2 h3 h4 h5 h6 <;>
        refine le_trans (List.length_filter_le _ _) ?_ <;>
        simp_all [MAX_TARGETS_ON_SCREEN] <;> omega

/-- A spawn attempt at full capacity is a silent no-op: no target is added. -/
theorem update_len_at_capacity (g : Game) (dt now : ℚ) (c : SpawnChoice)
    (h : MAX_TARGETS_ON_SCREEN ≤ g.targets.length) :
    (g.update dt now c).targets.length ≤ g.targets.length := by
  by_cases hp : g.playing = false
  · simp [update_of_not_playing g dt now c hp]
  · by_cases hpa : g.paused = true
    · simp [update_of_paused g dt now c hpa]
    · simp only [Game.update, hp, hpa, ROUND_TIME, Game.spawn_target]
      norm_num
      split_ifs with h1 h2 h3 h4 h5 h6 <;>
        refine le_trans (List.length_filter_le _ _) ?_ <;>
        simp_all [MAX_TARGETS_ON_SCREEN] <;> omega

/-! The closest-hit scan. -/

/-- What the scan loop of `handle_click` computes: either no target of `ts`
lies inside its outer ring closer than the incoming `closest_d2` bound and
the accumulator passes through unchanged, or the loop returns the index
(offset by `i`), squared distance and ring classification of the closest
in-ring target, which beats the incoming bound and is minimal over `ts`. -/
theorem hitScan_spec (mx my : ℚ) (ts : List Target) :
    ∀ (i : ℕ) (hi : ℤ) (cd : ℚ) (ring : Option ℕ),
      (hitScan mx my ts i hi cd ring = (hi, cd, ring) ∧
        ∀ t ∈ ts, ¬ (d2At mx my t ≤ (t.r * RING_FRACS.2.2) ^ 2 ∧
          d2At mx my t < cd))
      ∨ (∃ k : ℕ, ∃ hk : k < ts.length,
          hitScan mx my ts i hi cd ring =
            (((i + k : ℕ) : ℤ), d2At mx my (ts.get ⟨k, hk⟩),
              some (ringIdxOf (d2At mx my (ts.get ⟨k, hk⟩))
                (ts.get ⟨k, hk⟩).r)) ∧
          d2At mx my (ts.get ⟨k, hk⟩) ≤
            ((ts.get ⟨k, hk⟩).r * RING_FRACS.2.2) ^ 2 ∧
          d2At mx my (ts.get ⟨k, hk⟩) < cd ∧
          ∀ t ∈ ts, d2At mx my t ≤ (t.r * RING_FRACS.2.2) ^ 2 →
            d2At mx my (ts.get ⟨k, hk⟩) ≤ d2At mx my t) := by
  induction ts with
  | nil =>
    intro i hi cd ring
    left
    exact ⟨rfl, by simp⟩
  | cons t rest ih =>
    intro i hi cd ring
    by_cases h1 : d2At mx my t ≤ (t.r * RING_FRACS.2.2) ^ 2
    · by_cases h2 : d2At mx my t < cd
      · have step : hitScan mx my (t :: rest) i hi cd ring =
            hitScan mx my rest (i + 1) (i : ℤ) (d2At mx my t)
              (some (ringIdxOf (d2At mx my t) t.r)) := by
          simp [hitScan, h1, h2]
        rcases ih (i + 1) (i : ℤ) (d2At mx my t)
            (some (ringIdxOf (d2At mx my t) t.r)) with
          ⟨heq, hall⟩ | ⟨k, hk, heq, houter, hlt, hmin⟩
        · right
          refine ⟨0, by simp, ?_, by simpa using h1, h2, ?_⟩
          · rw [step, heq]; simp
          · intro u hu hou
            rcases List.mem_cons.mp hu with rfl | hu'
            · simp
            · have hnot := hall u hu'
              push_neg at hnot
              simpa using hnot hou
        · right
          refine ⟨k + 1, by simpa using Nat.succ_lt_succ hk, ?_, ?_, ?_, ?_⟩
          · rw [step, heq]
            simp
            all_goals omega
          · simpa using houter
          · refine lt_trans ?_ h2
            simpa using hlt
          · intro u hu hou
            rcases List.mem_cons.mp hu with rfl | hu'
            · refine le_of_lt ?_
              simpa using hlt
            · simpa using hmin u hu' hou
      · have step : hitScan mx my (t :: rest) i hi cd ring =
            hitScan mx my rest (i + 1) hi cd ring := by
          simp [hitScan, h1, h2]
        rcases ih (i + 1) hi cd ring with
          ⟨heq, hall⟩ | ⟨k, hk, heq, houter, hlt, hmin⟩
        · left
          refine ⟨step.trans heq, ?_⟩
          intro u hu
          rcases List.mem_cons.mp hu with rfl | hu'
          · exact fun hc => h2 hc.2
          · exact hall u hu'
        · right
          refine ⟨k + 1, by simpa using Nat.succ_lt_succ hk, ?_, ?_, ?_, ?_⟩
          · rw [step, heq]
            simp
            all_goals omega
          · simpa using houter
          · simpa using hlt
          · intro u hu hou
            rcases List.mem_cons.mp hu with rfl | hu'
            · have hcd : cd ≤ d2At mx my u := not_lt.mp h2
              refine le_trans (le_of_lt ?_) hcd
              simpa using hlt
            · simpa using hmin u hu' hou
    · have step : hitScan mx my (t :: rest) i hi cd ring =
          hitScan mx my rest (i + 1) hi cd ring := by
        simp [hitScan, h1]
      rcases ih (i + 1) hi cd ring with
        ⟨heq, hall⟩ | ⟨k, hk, heq, houter, hlt, hmin⟩
      · left
        refine ⟨step.trans heq, ?_⟩
        intro u hu
        rcases List.mem_cons.mp hu with rfl | hu'
        · exact fun hc => h1 hc.1
        · exact hall u hu'
      · right
        refine ⟨k + 1, by simpa using Nat.succ_lt_succ hk, ?_, ?_, ?_, ?_⟩
        · rw [step, heq]
          simp
          all_goals omega
        · simpa using houter
        · simpa using hlt
        · intro u hu hou
          rcases List.mem_cons.mp hu with rfl | hu'
          · exact absurd hou h1
          · simpa using hmin u hu' hou

/-- The miss branch of `handle_click` (lines 218-222). -/
def missState (g : Game) (pos : ℚ × ℚ) (now : ℚ) : Game :=
  ({ g with score := g.score + MISS_SCORE, misses := g.misses + 1 } :
    Game).make_float_text (toString MISS_SCORE) RED pos.1 pos.2 now

/-- The hit branch of `handle_click` (lines 203-217), for hit index `k`. -/
def hitState (g : Game) (pos : ℚ × ℚ) (now : ℚ) (k : ℕ) : Game :=
  let t := g.targets.getD k ⟨0, 0, 0, 0, 0⟩
  let award := ringScoreAt (ringIdxOf (d2At pos.1 pos.2 t) t.r)
  let color := if award = 10 then GREEN else if award = 5 then CYAN else WHITE
  ({ g with
    targets := g.targets.eraseIdx k
    score := g.score + award
    hits := g.hits + 1 } : Game).make_float_text
    ("+" ++ toString award) color t.x t.y now

/-- While a round is playing, a click either misses every target (no target's
outer ring contains the click point, up to the `1e12` sentinel) and takes the
miss branch, or hits the closest in-ring target `k` and takes the hit branch. -/
theorem handle_click_cases (g : Game) (pos : ℚ × ℚ) (now : ℚ)
    (hp : g.playing = true) :
    (g.handle_click pos now = missState g pos now ∧
      ∀ t ∈ g.targets, ¬ (d2At pos.1 pos.2 t ≤ (t.r * RING_FRACS.2.2) ^ 2 ∧
        d2At pos.1 pos.2 t < 10 ^ 12))
    ∨ (∃ k : ℕ, ∃ hk : k < g.targets.length,
        g.handle_click pos now = hitState g pos now k ∧
        d2At pos.1 pos.2 (g.targets.get ⟨k, hk⟩) ≤
          ((g.targets.get ⟨k, hk⟩).r * RING_FRACS.2.2) ^ 2 ∧
        ∀ t ∈ g.targets, d2At pos.1 pos.2 t ≤ (t.r * RING_FRACS.2.2) ^ 2 →
          d2At pos.1 pos.2 (g.targets.get ⟨k, hk⟩) ≤ d2At pos.1 pos.2 t) := by
  rcases hitScan_spec pos.1 pos.2 g.targets 0 (-1) ((10 : ℚ) ^ 12) none with
    ⟨heq, hall⟩ | ⟨k, hk, heq, houter, hlt, hmin⟩
  · left
    refine ⟨?_, hall⟩
    simp only [Game.handle_click, hp]
    rw [heq]
    norm_num [missState, Game.make_float_text, hp]
  · right
    refine ⟨k, hk, ?_, houter, hmin⟩
    simp only [Game.handle_click, hp]
    rw [heq]
    have htoNat : ((0 + k : ℕ) : ℤ).toNat = k := by omega
    norm_num [hitState, htoNat, List.getD_eq_getElem?_getD, List.getElem?_eq_getElem hk,
      Game.make_float_text, hp]

/-- Function `handle_click` never reads the pause flag on the playing path: the result
on a state with `paused := b` is the result on the original state with
`paused := b`. -/
theorem handle_click_paused_comm (g : Game) (pos : ℚ × ℚ) (now b)
    (hp : g.playing = true) :
    Game.handle_click { g with paused := b } pos now =
      { g.handle_click pos now with paused := b } := by
  have hp' : ({ g with paused := b } : Game).playing = true := hp
  simp only [Game.handle_click, hp, hp', Game.make_float_text]
  norm_num
  split_ifs <;> rfl

/-- Fields of the game state a playing-phase click never changes. -/
theorem handle_click_fields (g : Game) (pos : ℚ × ℚ) (now : ℚ)
    (hp : g.playing = true) :
    (g.handle_click pos now).spawn_interval = g.spawn_interval ∧
    (g.handle_click pos now).elapsed = g.elapsed ∧
    (g.handle_click pos now).best_score = g.best_score ∧
    (g.handle_click pos now).playing = true ∧
    (g.handle_click pos now).paused = g.paused ∧
    (g.handle_click pos now).start_time = g.start_time ∧
    (g.handle_click pos now).last_spawn = g.last_spawn ∧
    (g.handle_click pos now).timeouts = g.timeouts ∧
    (g.handle_click pos now).targets.length ≤ g.targets.length := by
  simp only [Game.handle_click, hp, Game.make_float_text]
  norm_num
  split_ifs <;>
    exact ⟨rfl, rfl, rfl, rfl, rfl, rfl, rfl, rfl, by
      first
        | exact List.length_eraseIdx_le ..
        | exact le_refl _⟩

/-! Invariants of the event-step machine. -/

theorem multistep_inv (P : Game → Prop)
    (hstep : ∀ (g : Game) (c : Cmd), P g → P (g.step c)) :
    ∀ (cs : List Cmd) (g : Game), P g → P (g.multistep cs) := by
  intro cs
  induction cs with
  | nil => exact fun g h => h
  | cons c rest ih => exact fun g h => ih (g.step c) (hstep g c h)

theorem reachable_inv (P : Game → Prop) (hinit : P initGame)
    (hstep : ∀ (g : Game) (c : Cmd), P g → P (g.step c)) :
    ∀ s : Game, Reachable s → P s := by
  rintro s ⟨cs, rfl⟩
  exact multistep_inv P hstep cs initGame hinit

theorem step_len_le (g : Game) (c : Cmd)
    (h : g.targets.length ≤ MAX_TARGETS_ON_SCREEN) :
    (g.step c).targets.length ≤ MAX_TARGETS_ON_SCREEN := by
  cases c with
  | update dt now sc => exact update_len_le g dt now sc h
  | click pos now =>
    by_cases hp : g.playing = true
    · exact le_trans
        (handle_click_fields g pos now hp).2.2.2.2.2.2.2.2 h
    · have hp' : g.playing = false := by simpa using hp
      simp [Game.step, Game.handle_click, hp', Game.start_round]
  | keyP =>
    simp only [Game.step]
    split_ifs <;> simpa
  | keyR => simpa [Game.step]
  | keyEscape => simpa [Game.step]
  | quitEvent => simpa [Game.step]
  | resetGame => simp [Game.step, Game.reset, initGame]
  | startRound now => simp [Game.step, Game.start_round]

/-- The implicit phase invariant: the game can only be paused mid-round. -/
def PausedImpliesPlaying (g : Game) : Prop := g.paused = true → g.playing = true

theorem step_paused_playing (g : Game) (c : Cmd) (h : PausedImpliesPlaying g) :
    PausedImpliesPlaying (g.step c) := by
  cases c with
  | update dt now sc =>
    by_cases hp : g.playing = true
    · by_cases hpa : g.paused = true
      · simpa [Game.step, update_of_paused g dt now sc hpa] using h
      · intro hps
        rw [Game.step, update_paused_eq] at hps
        exact absurd hps hpa
    · have hp' : g.playing = false := by simpa using hp
      simpa [Game.step, update_of_not_playing g dt now sc hp'] using h
  | click pos now =>
    by_cases hp : g.playing = true
    · intro _
      exact (handle_click_fields g pos now hp).2.2.2.1
    · have hp' : g.playing = false := by simpa using hp
      intro _
      simp [Game.step, Game.handle_click, hp', Game.start_round]
  | keyP =>
    simp only [Game.step]
    split_ifs with hp
    · exact fun _ => hp
    · simpa using h
  | keyR => simpa [Game.step] using h
  | keyEscape => simpa [Game.step] using h
  | quitEvent => simpa [Game.step] using h
  | resetGame => simp [Game.step, Game.reset, initGame, PausedImpliesPlaying]
  | startRound now =>
    intro _
    simp [Game.step, Game.start_round]

/-! The difficulty-ramp invariant. -/

/-- Within a round the stored `spawn_interval` always equals the ramp formula
of the stored `elapsed` time. -/
def SpawnIntervalInv (g : Game) : Prop :=
  0 ≤ g.elapsed ∧ g.spawn_interval = spawnIntervalFormula g.elapsed

theorem start_round_interval_inv (g : Game) (now : ℚ) :
    SpawnIntervalInv (g.start_round now) := by
  constructor
  · simp [Game.start_round]
  · simp only [Game.start_round]
    norm_num [spawnIntervalFormula, clamp, SPAWN_INTERVAL_START,
      SPAWN_INTERVAL_MIN, SPAWN_ACCEL_EVERY, SPAWN_ACCEL_STEP]

theorem update_spawn_interval_pos (g : Game) (dt now : ℚ) (c : SpawnChoice)
    (hp : g.playing = true) (hpa : g.paused = false)
    (hpos : 0 < now - g.start_time) :
    (g.update dt now c).spawn_interval =
      spawnIntervalFormula (now - g.start_time) := by
  simp only [Game.update, hp, hpa, ROUND_TIME, Game.spawn_target]
  norm_num [SPAWN_ACCEL_EVERY, hpos]
  split_ifs <;> rfl

theorem update_spawn_interval_nonpos (g : Game) (dt now : ℚ) (c : SpawnChoice)
    (hp : g.playing = true) (hpa : g.paused = false)
    (hnpos : ¬ 0 < now - g.start_time) :
    (g.update dt now c).spawn_interval = g.spawn_interval := by
  simp only [Game.update, hp, hpa, ROUND_TIME, Game.spawn_target]
  norm_num [SPAWN_ACCEL_EVERY, hnpos]
  split_ifs <;> rfl

theorem update_interval_inv (g : Game) (dt now : ℚ) (c : SpawnChoice)
    (hp : g.playing = true) (hpa : g.paused = false)
    (hmono : g.start_time + g.elapsed ≤ now) (hinv : SpawnIntervalInv g) :
    SpawnIntervalInv (g.update dt now c) := by
  have helapsed := update_elapsed g dt now c hp hpa
  have h0 : 0 ≤ now - g.start_time := by linarith [hinv.1]
  by_cases hpos : 0 < now - g.start_time
  · exact ⟨by rw [helapsed]; exact h0,
      by rw [helapsed, update_spawn_interval_pos g dt now c hp hpa hpos]⟩
  · have hz : now - g.start_time = 0 := le_antisymm (not_lt.mp hpos) h0
    have hez : g.elapsed = 0 := le_antisymm (by linarith) hinv.1
    refine ⟨by rw [helapsed]; exact h0, ?_⟩
    rw [helapsed, hz, update_spawn_interval_nonpos g dt now c hp hpa hpos,
      hinv.2, hez]

theorem spawnIntervalFormula_anti (t1 t2 : ℚ) (h : t1 ≤ t2) :
    spawnIntervalFormula t2 ≤ spawnIntervalFormula t1 := by
  have hf : Int.floor (t1 / SPAWN_ACCEL_EVERY) ≤
      Int.floor (t2 / SPAWN_ACCEL_EVERY) := by
    apply Int.floor_le_floor
    apply div_le_div_of_nonneg_right h
    norm_num [SPAWN_ACCEL_EVERY]
  have hstep : (0 : ℚ) ≤ SPAWN_ACCEL_STEP := by norm_num [SPAWN_ACCEL_STEP]
  have hcast : ((Int.floor (t1 / SPAWN_ACCEL_EVERY) : ℤ) : ℚ) ≤
      ((Int.floor (t2 / SPAWN_ACCEL_EVERY) : ℤ) : ℚ) := Int.cast_le.mpr hf
  have hsub : SPAWN_INTERVAL_START -
      (Int.floor (t2 / SPAWN_ACCEL_EVERY) : ℚ) * SPAWN_ACCEL_STEP ≤
      SPAWN_INTERVAL_START -
      (Int.floor (t1 / SPAWN_ACCEL_EVERY) : ℚ) * SPAWN_ACCEL_STEP := by
    have := mul_le_mul_of_nonneg_right hcast hstep
    linarith
  unfold spawnIntervalFormula clamp
  exact max_le_max (le_refl _) (min_le_min (le_refl _) hsub)

theorem spawnIntervalFormula_at_twelve : spawnIntervalFormula 12 = 0.77 := by
  have hfl : Int.floor ((12 : ℚ) / SPAWN_ACCEL_EVERY) = 2 := by
    norm_num [SPAWN_ACCEL_EVERY]
  norm_num [spawnIntervalFormula, clamp, hfl, SPAWN_INTERVAL_START,
    SPAWN_INTERVAL_MIN, SPAWN_ACCEL_STEP]

theorem ringScoreAt_pos (i : ℕ) : 0 < ringScoreAt i := by
  unfold ringScoreAt
  split_ifs <;> norm_num [RING_SCORES]

theorem getD_of_lt (l : List Target) (k : ℕ) (d : Target)
    (hk : k < l.length) : l.getD k d = l.get ⟨k, hk⟩ := by
  simp [List.getD_eq_getElem?_getD, List.getElem?_eq_getElem hk]

/-- A fixed oracle draw used to instantiate concrete traces. -/
def sampleChoice : SpawnChoice := ⟨20, 100, 100, 1⟩

/-- A mid-round state holding one target spawned at time 0, used to
instantiate concrete traces. -/
def expiryDemo : Game :=
  { initGame with playing := true, targets := [⟨100, 100, 20, 0, 1.5⟩] }

/-- A paused mid-round state, used to instantiate concrete traces. -/
def pausedDemo : Game := { expiryDemo with paused := true }

/-! The claims. -/

/-- Claim C10: the HUD accuracy is `hits / max(1, hits + misses) * 100`: the
division is guarded, it is `0` when no click has been registered, and for at
least one click it equals `hits / (hits + misses) * 100` (timeouts never
enter the denominator). -/
theorem claim_C10 :
    (∀ g : Game, g.hits + g.misses = 0 → g.accuracy = 0) ∧
    (∀ g : Game, 1 ≤ g.hits + g.misses →
      g.accuracy = ((g.hits : ℚ) / ((g.hits : ℚ) + (g.misses : ℚ))) * 100) ∧
    (∀ g : Game, (max 1 (g.hits + g.misses) : ℕ) ≠ 0) := by
  refine ⟨?_, ?_, ?_⟩
  · intro g h
    have h1 : g.hits = 0 := by omega
    simp [Game.accuracy, h1]
  · intro g h
    have hmax : max 1 (g.hits + g.misses) = g.hits + g.misses := by omega
    rw [Game.accuracy, hmax]
    push_cast
    ring
  · intro g
    have := Nat.le_max_left 1 (g.hits + g.misses)
    omega

theorem claim_C10_witness :
    1 ≤ ({ initGame with hits := 2, misses := 1 } : Game).hits +
        ({ initGame with hits := 2, misses := 1 } : Game).misses ∧
    ({ initGame with hits := 2, misses := 1 } : Game).accuracy =
      ((({ initGame with hits := 2, misses := 1 } : Game).hits : ℚ) /
        ((({ initGame with hits := 2, misses := 1 } : Game).hits : ℚ) +
          (({ initGame with hits := 2, misses := 1 } : Game).misses : ℚ))) *
        100 :=
  ⟨by norm_num [initGame],
    claim_C10.2.1 { initGame with hits := 2, misses := 1 } (by norm_num [initGame])⟩

/-- Claim C5: with `ROUND_TIME = 15` a round leaves the playing phase exactly
at the first unpaused update whose computed elapsed time `now - start_time`
reaches 15 and never before; `best_score` becomes `max best_score score`
exactly then, and is untouched by earlier updates, by paused updates, by
non-playing updates and by playing-phase clicks. -/
theorem claim_C5 :
    (∀ (g : Game) (dt now : ℚ) (c : SpawnChoice), g.playing = false →
      g.update dt now c = g) ∧
    (∀ (g : Game) (dt now : ℚ) (c : SpawnChoice), g.paused = true →
      g.update dt now c = g) ∧
    (∀ (g : Game) (dt now : ℚ) (c : SpawnChoice), g.playing = true →
      g.paused = false →
      (g.update dt now c).elapsed = now - g.start_time) ∧
    (∀ (g : Game) (dt now : ℚ) (c : SpawnChoice), g.playing = true →
      g.paused = false → now - g.start_time < 15 →
      (g.update dt now c).playing = true ∧
      (g.update dt now c).best_score = g.best_score) ∧
    (∀ (g : Game) (dt now : ℚ) (c : SpawnChoice), g.playing = true →
      g.paused = false → 15 ≤ now - g.start_time →
      (g.update dt now c).playing = false ∧
      (g.update dt now c).best_score =
        max g.best_score (g.update dt now c).score) ∧
    (∀ (g : Game) (pos : ℚ × ℚ) (now : ℚ), g.playing = true →
      (g.handle_click pos now).best_score = g.best_score) :=
  ⟨update_of_not_playing, update_of_paused, update_elapsed,
    update_playing_of_lt, update_roundover,
    fun g pos now hp => (handle_click_fields g pos now hp).2.2.1⟩

theorem claim_C5_witness :
    ((initGame.start_round 0).update 0 15 sampleChoice).playing = false ∧
    ((initGame.start_round 0).update 0 15 sampleChoice).best_score =
      max (initGame.start_round 0).best_score
        ((initGame.start_round 0).update 0 15 sampleChoice).score :=
  claim_C5.2.2.2.2.1 (initGame.start_round 0) 0 15 sampleChoice rfl rfl
    (by norm_num [Game.start_round, initGame])

/-- Claim C7: an unpaused playing update removes exactly the targets whose
age exceeds their lifetime, charging `TIMEOUT_SCORE = -3` once per expired
target, incrementing `timeouts` once per expired target and emitting exactly
one feedback text at each expired target's position; the surviving targets
(plus the tick's fresh spawn, if any) are kept unchanged, and the click
counters are untouched. -/
theorem claim_C7 (g : Game) (dt now : ℚ) (c : SpawnChoice)
    (hp : g.playing = true) (hpa : g.paused = false)
    (hl : 0 ≤ TARGET_LIFETIME * c.lifeFactor) :
    TIMEOUT_SCORE = -3 ∧
    (∀ t ∈ (g.update dt now c).targets, ¬ (t.lifetime < now - t.spawn_time)) ∧
    ((g.update dt now c).targets = g.targets.filter (fun t => !expiredB now t) ∨
      (g.update dt now c).targets =
        g.targets.filter (fun t => !expiredB now t) ++ [spawnedTarget c now]) ∧
    (g.update dt now c).score =
      g.score + TIMEOUT_SCORE * ((g.targets.filter (expiredB now)).length : ℤ) ∧
    (g.update dt now c).timeouts =
      g.timeouts + (g.targets.filter (expiredB now)).length ∧
    (g.update dt now c).floating_texts =
      g.floating_texts ++ (g.targets.filter (expiredB now)).map (expiredFT now) ∧
    (g.update dt now c).hits = g.hits ∧
    (g.update dt now c).misses = g.misses := by
  obtain ⟨htg, hsc, hto, hft, hh, hm⟩ := update_expiry g dt now c hp hpa hl
  refine ⟨by norm_num [TIMEOUT_SCORE], ?_, htg, hsc, hto, hft, hh, hm⟩
  intro t ht
  rcases htg with h | h <;> rw [h] at ht
  · have := (List.mem_filter.mp ht).2
    simpa [expiredB] using this
  · rcases List.mem_append.mp ht with h' | h'
    · have := (List.mem_filter.mp h').2
      simpa [expiredB] using this
    · have ht' : t = spawnedTarget c now := by simpa using h'
      subst ht'
      have := expiredB_spawnedTarget c now hl
      simpa [expiredB] using this

theorem claim_C7_witness :
    (expiryDemo.update 0 2 sampleChoice).timeouts =
      expiryDemo.timeouts +
        ((expiryDemo.targets.filter (expiredB 2)).length) :=
  (claim_C7 expiryDemo 0 2 sampleChoice rfl rfl
    (by norm_num [TARGET_LIFETIME, sampleChoice])).2.2.2.2.1

/-- Claim C3: in every reachable state at most `MAX_TARGETS_ON_SCREEN = 7`
targets are live — `update` spawns at most one target per call and only when
strictly below capacity, so a spawn attempt at capacity adds nothing. -/
theorem claim_C3 :
    MAX_TARGETS_ON_SCREEN = 7 ∧
    (∀ s : Game, Reachable s →
      s.targets.length ≤ MAX_TARGETS_ON_SCREEN) ∧
    (∀ (g : Game) (dt now : ℚ) (c : SpawnChoice),
      MAX_TARGETS_ON_SCREEN ≤ g.targets.length →
      (g.update dt now c).targets.length ≤ g.targets.length) :=
  ⟨rfl,
    reachable_inv _ (by simp [initGame, MAX_TARGETS_ON_SCREEN]) step_len_le,
    update_len_at_capacity⟩

theorem claim_C3_witness :
    (Game.multistep initGame
        [Cmd.startRound 0, Cmd.update 0 1 sampleChoice]).targets.length ≤
      MAX_TARGETS_ON_SCREEN :=
  claim_C3.2.1 _ ⟨[Cmd.startRound 0, Cmd.update 0 1 sampleChoice], rfl⟩

/-- Claim C8: in every reachable state `paused` implies `playing`: the P key
is ignored outside a round and a paused round can never end (a paused update
is a complete no-op), so the start and round-over screens are never paused
and `start_round` has nothing to clear. -/
theorem claim_C8 :
    (∀ s : Game, Reachable s → s.paused = true → s.playing = true) ∧
    (∀ (g : Game) (dt now : ℚ) (c : SpawnChoice), g.paused = true →
      g.update dt now c = g) :=
  ⟨fun s hs => reachable_inv PausedImpliesPlaying
      (by intro h; simp [initGame] at h) step_paused_playing s hs,
    update_of_paused⟩

theorem claim_C8_witness :
    (Game.multistep initGame [Cmd.startRound 0, Cmd.keyP]).paused = true ∧
    (Game.multistep initGame [Cmd.startRound 0, Cmd.keyP]).playing = true :=
  ⟨rfl, claim_C8.1 _ ⟨[Cmd.startRound 0, Cmd.keyP], rfl⟩ rfl⟩

/-- Claim C4: the call `start_round` resets the spawn interval to
`SPAWN_INTERVAL_START = 0.85` and establishes the ramp invariant; every
monotone unpaused playing update maintains `spawn_interval =
clamp(0.85 - floor(elapsed / 5) * 0.04, 0.35, 0.85)` (clicks change neither
`spawn_interval` nor `elapsed`); the formula is non-increasing in the
elapsed time and equals `0.77` at `elapsed = 12`. -/
theorem claim_C4 :
    (∀ (g : Game) (now : ℚ), SpawnIntervalInv (g.start_round now) ∧
      (g.start_round now).spawn_interval = SPAWN_INTERVAL_START) ∧
    (∀ (g : Game) (dt now : ℚ) (c : SpawnChoice), g.playing = true →
      g.paused = false → g.start_time + g.elapsed ≤ now →
      SpawnIntervalInv g → SpawnIntervalInv (g.update dt now c)) ∧
    (∀ (g : Game) (pos : ℚ × ℚ) (now : ℚ), g.playing = true →
      (g.handle_click pos now).spawn_interval = g.spawn_interval ∧
      (g.handle_click pos now).elapsed = g.elapsed) ∧
    (∀ t1 t2 : ℚ, t1 ≤ t2 → spawnIntervalFormula t2 ≤ spawnIntervalFormula t1) ∧
    spawnIntervalFormula 12 = 0.77 ∧
    SPAWN_INTERVAL_START = 0.85 :=
  ⟨fun g now => ⟨start_round_interval_inv g now, rfl⟩,
    update_interval_inv,
    fun g pos now hp => ⟨(handle_click_fields g pos now hp).1,
      (handle_click_fields g pos now hp).2.1⟩,
    spawnIntervalFormula_anti,
    spawnIntervalFormula_at_twelve, rfl⟩

theorem claim_C4_witness :
    SpawnIntervalInv ((initGame.start_round 0).update 0 12 sampleChoice) ∧
    ((initGame.start_round 0).update 0 12 sampleChoice).spawn_interval =
      0.77 := by
  have hinv := (claim_C4.1 initGame 0).1
  have h2 := claim_C4.2.1 (initGame.start_round 0) 0 12 sampleChoice rfl rfl
    (by norm_num [Game.start_round, initGame]) hinv
  refine ⟨h2, ?_⟩
  rw [h2.2, update_elapsed _ _ _ _ rfl rfl]
  have : (12 : ℚ) - (initGame.start_round 0).start_time = 12 := by
    norm_num [Game.start_round, initGame]
  rw [this, claim_C4.2.2.2.2.1]

theorem d2_lt_sentinel (mx my : ℚ) (t : Target) (h0 : 0 ≤ t.r)
    (h36 : t.r ≤ TARGET_MAX_RADIUS)
    (houter : d2At mx my t ≤ (t.r * RING_FRACS.2.2) ^ 2) :
    d2At mx my t < 10 ^ 12 := by
  have hone : t.r * RING_FRACS.2.2 = t.r := by norm_num [RING_FRACS]
  rw [hone] at houter
  have hsq : t.r ^ 2 ≤ TARGET_MAX_RADIUS ^ 2 := by
    have := pow_le_pow_left₀ h0 h36 2
    simpa using this
  have : TARGET_MAX_RADIUS ^ 2 < (10 : ℚ) ^ 12 := by
    norm_num [TARGET_MAX_RADIUS]
  linarith

/-- Claim C2: a click during play resolves against the live targets: if some
target's outer ring (`d² ≤ (r · 1.00)²`) contains the click, the closest such
target is removed, the ring of its own squared distance against the
`0.25 / 0.55 / 1.00` radius fractions decides the award (`+10 / +5 / +1`,
innermost first) and `hits` grows by one; otherwise the click is a miss
(`MISS_SCORE = -5`, `misses` grows by one).  Radii of live targets are
assumed inside the spawnable range. -/
theorem claim_C2 (g : Game) (pos : ℚ × ℚ) (now : ℚ) (hp : g.playing = true)
    (hr : ∀ t ∈ g.targets, 0 ≤ t.r ∧ t.r ≤ TARGET_MAX_RADIUS) :
    ((∀ t ∈ g.targets, ¬ d2At pos.1 pos.2 t ≤ (t.r * RING_FRACS.2.2) ^ 2) →
      g.handle_click pos now = missState g pos now ∧
      (g.handle_click pos now).score = g.score + MISS_SCORE ∧
      (g.handle_click pos now).misses = g.misses + 1 ∧
      (g.handle_click pos now).hits = g.hits ∧
      (g.handle_click pos now).targets = g.targets) ∧
    ((∃ t ∈ g.targets, d2At pos.1 pos.2 t ≤ (t.r * RING_FRACS.2.2) ^ 2) →
      ∃ k : ℕ, ∃ hk : k < g.targets.length,
        d2At pos.1 pos.2 (g.targets.get ⟨k, hk⟩) ≤
          ((g.targets.get ⟨k, hk⟩).r * RING_FRACS.2.2) ^ 2 ∧
        (∀ t ∈ g.targets, d2At pos.1 pos.2 t ≤ (t.r * RING_FRACS.2.2) ^ 2 →
          d2At pos.1 pos.2 (g.targets.get ⟨k, hk⟩) ≤ d2At pos.1 pos.2 t) ∧
        g.handle_click pos now = hitState g pos now k ∧
        (g.handle_click pos now).score = g.score +
          ringScoreAt (ringIdxOf (d2At pos.1 pos.2 (g.targets.get ⟨k, hk⟩))
            (g.targets.get ⟨k, hk⟩).r) ∧
        (g.handle_click pos now).hits = g.hits + 1 ∧
        (g.handle_click pos now).misses = g.misses ∧
        (g.handle_click pos now).targets = g.targets.eraseIdx k) ∧
    RING_SCORES = (10, 5, 1) ∧ MISS_SCORE = -5 ∧
    ringScoreAt 0 = 10 ∧ ringScoreAt 1 = 5 ∧ ringScoreAt 2 = 1 := by
  rcases handle_click_cases g pos now hp with
    ⟨heq, hall⟩ | ⟨k, hk, heq, houter, hmin⟩
  · refine ⟨?_, ?_, rfl, rfl, rfl, rfl, rfl⟩
    · intro _
      refine ⟨heq, ?_, ?_, ?_, ?_⟩ <;>
        rw [heq] <;> simp [missState, Game.make_float_text]
    · rintro ⟨t, ht, hout⟩
      exact absurd ⟨hout, d2_lt_sentinel pos.1 pos.2 t (hr t ht).1
        (hr t ht).2 hout⟩ (hall t ht)
  · refine ⟨?_, ?_, rfl, rfl, rfl, rfl, rfl⟩
    · intro hnone
      exact absurd houter (hnone (g.targets.get ⟨k, hk⟩) (List.get_mem ..))
    · intro _
      refine ⟨k, hk, houter, hmin, heq, ?_, ?_, ?_, ?_⟩ <;>
        rw [heq] <;>
        simp [hitState, Game.make_float_text, getD_of_lt g.targets k _ hk,
          List.getElem?_eq_getElem hk]

theorem claim_C2_witness : ∃ k : ℕ, ∃ hk : k < expiryDemo.targets.length,
    d2At (100, (100 : ℚ)).1 (100, (100 : ℚ)).2
        (expiryDemo.targets.get ⟨k, hk⟩) ≤
      ((expiryDemo.targets.get ⟨k, hk⟩).r * RING_FRACS.2.2) ^ 2 ∧
    (∀ t ∈ expiryDemo.targets,
      d2At (100, (100 : ℚ)).1 (100, (100 : ℚ)).2 t ≤
        (t.r * RING_FRACS.2.2) ^ 2 →
      d2At (100, (100 : ℚ)).1 (100, (100 : ℚ)).2
          (expiryDemo.targets.get ⟨k, hk⟩) ≤
        d2At (100, (100 : ℚ)).1 (100, (100 : ℚ)).2 t) ∧
    expiryDemo.handle_click (100, 100) 0 =
      hitState expiryDemo (100, 100) 0 k ∧
    (expiryDemo.handle_click (100, 100) 0).score = expiryDemo.score +
      ringScoreAt (ringIdxOf
        (d2At (100, (100 : ℚ)).1 (100, (100 : ℚ)).2
          (expiryDemo.targets.get ⟨k, hk⟩))
        (expiryDemo.targets.get ⟨k, hk⟩).r) ∧
    (expiryDemo.handle_click (100, 100) 0).hits = expiryDemo.hits + 1 ∧
    (expiryDemo.handle_click (100, 100) 0).misses = expiryDemo.misses ∧
    (expiryDemo.handle_click (100, 100) 0).targets =
      expiryDemo.targets.eraseIdx k :=
  (claim_C2 expiryDemo (100, 100) 0 rfl
      (by norm_num [expiryDemo, initGame, TARGET_MAX_RADIUS])).2.1
    ⟨⟨100, 100, 20, 0, 1.5⟩, by norm_num [expiryDemo, initGame],
      by norm_num [d2At, RING_FRACS]⟩

/-- Claim C9: the resolver `handle_click` never consults the pause flag: on a playing
state the click outcome is independent of `paused`, and even while paused a
click is fully resolved — the click counters grow by one, one feedback text
is appended, and either one target is removed with a nonzero score change or
the miss penalty is charged. -/
theorem claim_C9 :
    (∀ (g : Game) (pos : ℚ × ℚ) (now : ℚ) (b : Bool), g.playing = true →
      Game.handle_click { g with paused := b } pos now =
        { g.handle_click pos now with paused := b }) ∧
    (∀ (g : Game) (pos : ℚ × ℚ) (now : ℚ), g.playing = true →
      g.paused = true →
      (g.handle_click pos now).hits + (g.handle_click pos now).misses =
        g.hits + g.misses + 1 ∧
      (g.handle_click pos now).floating_texts.length =
        g.floating_texts.length + 1 ∧
      (((g.handle_click pos now).targets.length + 1 = g.targets.length ∧
        (g.handle_click pos now).score ≠ g.score) ∨
      ((g.handle_click pos now).targets = g.targets ∧
        (g.handle_click pos now).score = g.score + MISS_SCORE ∧
        (g.handle_click pos now).score ≠ g.score))) := by
  refine ⟨handle_click_paused_comm, ?_⟩
  intro g pos now hp _
  rcases handle_click_cases g pos now hp with
    ⟨heq, _⟩ | ⟨k, hk, heq, _, _⟩
  · rw [heq]
    refine ⟨by simp [missState, Game.make_float_text]; omega,
      by simp [missState, Game.make_float_text], Or.inr ⟨?_, ?_, ?_⟩⟩ <;>
      simp [missState, Game.make_float_text, MISS_SCORE] <;> omega
  · rw [heq]
    have hpos := ringScoreAt_pos (ringIdxOf
      (d2At pos.1 pos.2 (g.targets.getD k ⟨0, 0, 0, 0, 0⟩))
      (g.targets.getD k ⟨0, 0, 0, 0, 0⟩).r)
    refine ⟨by simp [hitState, Game.make_float_text]; omega,
      by simp [hitState, Game.make_float_text], Or.inl ⟨?_, ?_⟩⟩
    · simpa [hitState, Game.make_float_text] using
        List.length_eraseIdx_add_one hk
    · simp only [hitState, Game.make_float_text]
      intro hcon
      omega

theorem claim_C9_witness :
    (pausedDemo.handle_click (0, 0) 1).hits +
        (pausedDemo.handle_click (0, 0) 1).misses =
      pausedDemo.hits + pausedDemo.misses + 1 :=
  (claim_C9.2 pausedDemo (0, 0) 1 rfl rfl).1

/-- The round state reached by `start_round 0` followed by one update at
`now = 1`: one target (spawned at 1), elapsed 1. -/
def pauseTrace1 : Game :=
  { initGame with
    playing := true
    targets := [⟨100, 100, 20, 1, 1.5⟩]
    last_spawn := 1
    elapsed := 1 }

/-- State `pauseTrace1` after the pause toggle. -/
def pauseTrace2 : Game := { pauseTrace1 with paused := true }

/-- State `pauseTrace1` after unpausing and one update at `now = 3`: the round
clock jumps to 3 and the target spawned at 1 has timed out. -/
def pauseTrace3 : Game :=
  { initGame with
    playing := true
    targets := [⟨100, 100, 20, 3, 1.5⟩]
    last_spawn := 3
    elapsed := 3
    score := -3
    timeouts := 1
    floating_texts := [⟨"-" ++ toString TIMEOUT_SCORE.natAbs, RED, 100, 100, 3⟩] }

/-- Claim C1, counterexample: start a round at time 0, update at `now = 1`
(elapsed 1, one target alive, spawned at 1), pause, update at `now = 2`
(frozen, elapsed still 1), unpause, update at `now = 3`.  The claim says the
round resumes from the pre-pause elapsed time (1) and target ages, but the
code computes `elapsed = now - start_time = 3` — the wall-clock second spent
paused is fully counted — and the target expires (`timeouts = 1`) although
it existed unpaused for well under its 1.5 s lifetime. -/
theorem claim_C1_counterexample :
    ((((initGame.start_round 0).update 0 1 sampleChoice).step
        Cmd.keyP).update 0 2 sampleChoice).elapsed = 1 ∧
    (((((initGame.start_round 0).update 0 1 sampleChoice).step
        Cmd.keyP).update 0 2 sampleChoice).step Cmd.keyP).paused = false ∧
    ((((((initGame.start_round 0).update 0 1 sampleChoice).step
        Cmd.keyP).update 0 2 sampleChoice).step Cmd.keyP).update 0 3
          sampleChoice).elapsed = 3 ∧
    ((((((initGame.start_round 0).update 0 1 sampleChoice).step
        Cmd.keyP).update 0 2 sampleChoice).step Cmd.keyP).update 0 3
          sampleChoice).elapsed ≠
      ((((initGame.start_round 0).update 0 1 sampleChoice).step
        Cmd.keyP).update 0 2 sampleChoice).elapsed ∧
    ((((((initGame.start_round 0).update 0 1 sampleChoice).step
        Cmd.keyP).update 0 2 sampleChoice).step Cmd.keyP).update 0 3
          sampleChoice).timeouts = 1 := by
  have h2 : (initGame.start_round 0).update 0 1 sampleChoice = pauseTrace1 := by
    norm_num [Game.update, Game.start_round, initGame, Game.spawn_target,
      pauseTrace1, spawnIntervalFormula, clamp, ROUND_TIME,
      SPAWN_INTERVAL_START, SPAWN_INTERVAL_MIN, SPAWN_ACCEL_EVERY,
      SPAWN_ACCEL_STEP, TARGET_LIFETIME, sampleChoice, MAX_TARGETS_ON_SCREEN]
  have h3 : pauseTrace1.step Cmd.keyP = pauseTrace2 := rfl
  have h4 : pauseTrace2.update 0 2 sampleChoice = pauseTrace2 :=
    update_of_paused pauseTrace2 0 2 sampleChoice rfl
  have h5 : pauseTrace2.step Cmd.keyP = pauseTrace1 := rfl
  have h6 : pauseTrace1.update 0 3 sampleChoice = pauseTrace3 := by
    norm_num [Game.update, pauseTrace1, initGame, Game.spawn_target,
      pauseTrace3, spawnIntervalFormula, clamp, ROUND_TIME,
      SPAWN_INTERVAL_START, SPAWN_INTERVAL_MIN, SPAWN_ACCEL_EVERY,
      SPAWN_ACCEL_STEP, TARGET_LIFETIME, sampleChoice, MAX_TARGETS_ON_SCREEN,
      TIMEOUT_SCORE]
  rw [h2, h3, h4, h5, h6]
  refine ⟨rfl, rfl, rfl, ?_, rfl⟩
  norm_num [pauseTrace3, pauseTrace2, pauseTrace1, initGame]

/-- Claim C1 (amended): while paused, every `update` call is a complete
no-op, so nothing advances during the pause itself; but resuming does not
restore the pre-pause clock — the first unpaused update recomputes
`elapsed = now - start_time` from the wall clock (neither `start_time` nor
the targets' `spawn_time` are shifted on unpause), so the wall-clock time
spent paused is counted against the round and against target lifetimes. -/
theorem claim_C1 :
    (∀ (g : Game) (dt now : ℚ) (c : SpawnChoice), g.paused = true →
      g.update dt now c = g) ∧
    (∀ (g : Game) (dt now : ℚ) (c : SpawnChoice), g.playing = true →
      g.paused = false →
      (g.update dt now c).elapsed = now - g.start_time) :=
  ⟨update_of_paused, update_elapsed⟩

theorem claim_C1_witness :
    pausedDemo.update 0 2 sampleChoice = pausedDemo ∧
    (expiryDemo.update 0 2 sampleChoice).elapsed = 2 - expiryDemo.start_time :=
  ⟨claim_C1.1 pausedDemo 0 2 sampleChoice rfl,
    claim_C1.2 expiryDemo 0 2 sampleChoice rfl rfl⟩

/-- Claim C6, code-bug evidence: `update` ignores `dt` entirely (no clamping
can occur) and does not treat a non-monotonic `now` as a no-op: starting a
round at time 10 and then updating with `now = 5` changes the state and
stores the negative round time `elapsed = -5`. -/
theorem claim_C6_failing :
    (initGame.start_round 10).elapsed = 0 ∧
    ((initGame.start_round 10).update 0 5 sampleChoice).elapsed = -5 ∧
    ((initGame.start_round 10).update 0 5 sampleChoice).elapsed ≠
      (initGame.start_round 10).elapsed ∧
    (∀ (g : Game) (dt dt' now : ℚ) (c : SpawnChoice),
      g.update dt now c = g.update dt' now c) := by
  have h2 : ((initGame.start_round 10).update 0 5 sampleChoice).elapsed = -5 := by
    norm_num [Game.update, Game.start_round, initGame, ROUND_TIME,
      SPAWN_ACCEL_EVERY, SPAWN_INTERVAL_START, MAX_TARGETS_ON_SCREEN]
  refine ⟨rfl, h2, ?_, fun g dt dt' now c => rfl⟩
  rw [h2]
  norm_num [Game.start_round, initGame]

end Shooting
